import Mathlib

/-!
Shallow embedding of the contact-backend server (`src/server.js`) —
a multi-tenant contact-form relay.  JSON values appearing as form-field
values are modelled by `JVal`; a request body is an association list of
field name to value in submission order; per-site configuration mirrors
the `SITES_JSON` entries.  The `POST /v1/contact` handler is embedded as
`handleContact`, with the outcome of the external mail dispatch supplied
as an explicit `Except` parameter.
-/

namespace Contact

/-- A JavaScript value as it can appear as a form-field value:
`vnull` covers both `null` and `undefined` (indistinguishable for the
checks the server performs); `vstr` is a string; `vother` is any other
value, carrying its `String(...)` rendering and its JS truthiness. -/
inductive JVal where
  | vnull : JVal
  | vstr (s : String) : JVal
  | vother (rendered : String) (truthy : Bool) : JVal
deriving DecidableEq, Repr

/-- The JS conversion `String(v)` for a `JVal`. -/
def JVal.str : JVal → String
  | .vnull => "null"
  | .vstr s => s
  | .vother r _ => r

/-- JS truthiness of a `JVal`. -/
def JVal.truthy : JVal → Bool
  | .vnull => false
  | .vstr s => s != ""
  | .vother _ t => t

/-- The string `String(v || "")`, which the server feeds to the email check. -/
def JVal.orEmptyStr : JVal → String
  | .vnull => ""
  | .vstr s => s
  | .vother r t => if t then r else ""

/-- The JS whitespace class (the regex class and the set removed by `trim`). -/
def isJsWs (c : Char) : Bool :=
  c == ' ' || c == '\t' || c == '\n' || c == '\r' ||
  c == '\x0b' || c == '\x0c' || c == '\u00A0' || c == '\u1680' ||
  ('\u2000' ≤ c && c ≤ '\u200A') || c == '\u2028' || c == '\u2029' ||
  c == '\u202F' || c == '\u205F' || c == '\u3000' || c == '\uFEFF'

/-- JavaScript `String.prototype.trim`. -/
def jsTrim (s : String) : String :=
  String.mk (((s.data.dropWhile isJsWs).reverse.dropWhile isJsWs).reverse)

/-- The server's `isEmpty`: value is `null`/`undefined`, or a string trimming to empty. -/
def jsIsEmpty : JVal → Bool
  | .vnull => true
  | .vstr s => jsTrim s == ""
  | .vother _ _ => false

/-- Whether a character list, as a whole, matches the regex piece for a
local part: nonempty, no whitespace, no at-sign. -/
def localChunk (cs : List Char) : Bool :=
  !cs.isEmpty && cs.all (fun c => !isJsWs c && c != '@')

/-- Whether a character list matches the regex piece for a domain:
no whitespace, no at-sign, and a dot that is neither its first nor its
last character. -/
def domainChunk (cs : List Char) : Bool :=
  cs.all (fun c => !isJsWs c && c != '@') &&
  (match cs with
   | [] => false
   | _ :: rest => rest.dropLast.contains '.')

/-- Split a character list at its first at-sign: the part before it,
and the part after it (`none` when there is no at-sign). -/
def splitAtSign : List Char → List Char × Option (List Char)
  | [] => ([], none)
  | x :: xs =>
    if x = '@' then ([], some xs)
    else
      let r := splitAtSign xs
      (x :: r.1, r.2)

/-- The server's `isEmail`: test the trimmed `String(x || "")` against
the pattern local-part, at-sign, domain-with-interior-dot.  The regex
admits exactly the strings of shape `a@d` where `a` is a nonempty
at-free whitespace-free chunk and `d` is such a chunk with an interior
dot (both chunks also at-free, so the at-sign is unique); membership is
decided via the split at the first at-sign. -/
def jsIsEmail (x : String) : Bool :=
  let t := jsTrim x
  match splitAtSign t.data with
  | (a, some d) => localChunk a && domainChunk d
  | (_, none) => false

/-- One character of the server's `esc`: the replacement the regex
callback produces for that character (identity when not special). -/
def escChar (c : Char) : String :=
  if c = '&' then "&amp;"
  else if c = '<' then "&lt;"
  else if c = '>' then "&gt;"
  else if c = '"' then "&quot;"
  else if c = '\'' then "&#39;"
  else String.singleton c

/-- Concatenation of the per-character replacements, left to right. -/
def escList : List Char → String
  | [] => ""
  | c :: cs => escChar c ++ escList cs

/-- The server's `esc`: replace every occurrence of the five
HTML-special characters by its entity (a single left-to-right pass). -/
def esc (s : String) : String :=
  escList s.data

/-- Per-site configuration, one entry of `SITES_JSON`.  On
`allowedOrigins`, `none` means the field is absent or not an array; on
the other fields `none` means absent (JS `undefined`, falsy). -/
structure SiteConfig where
  allowedOrigins : Option (List String) := none
  requiredFields : Option (List String) := none
  fieldLabels : Option (List (String × String)) := none
  fieldOrder : Option (List String) := none
  subject : Option String := none
  subjectPrefix : Option String := none
deriving DecidableEq, Repr

/-- JS `a || b` for a possibly-absent string `a` (absent and `""` are falsy). -/
def jsOrStr (a : Option String) (b : String) : String :=
  match a with
  | some s => if s = "" then b else s
  | none => b

/-- A request body: field name to value, in submission order. -/
abbrev Body := List (String × JVal)

/-- Property lookup `body[k]`, yielding `undefined` (`vnull`) when absent. -/
def jsGet (body : Body) (k : String) : JVal :=
  (body.lookup k).getD .vnull

/-- The reserved internal field names (the server's `IGNORE` set). -/
def IGNORE : List String := ["siteId", "consent", "hp", "captchaToken", "meta"]

/-- The server's `keys`: the body's own keys, minus internal ones and
those with empty values. -/
def candidateKeys (body : Body) : List String :=
  (body.map Prod.fst).filter (fun k => !IGNORE.contains k && !jsIsEmpty (jsGet body k))

/-- JS `Array.prototype.indexOf`, as an option: the index of the first
occurrence of `k`, or `none` in place of `-1`. -/
def indexOf? (k : String) : List String → Option Nat
  | [] => none
  | a :: rest => if a = k then some 0 else (indexOf? k rest).map (· + 1)

/-- The sort key used by the server's comparator: the index of `k` in
the configured order, with 9999 standing in for "not listed". -/
def jsIdx (order : List String) (k : String) : Nat :=
  match indexOf? k order with
  | some i => i
  | none => 9999

/-- Insert `x` into `l` before the first element whose key is not
smaller; inserting into an already-sorted tail this way lands `x` after
every earlier element of equal key, the placement a stable comparison
sort gives. -/
def insertStable (key : String → Nat) (x : String) : List String → List String
  | [] => [x]
  | y :: ys => if key y < key x then y :: insertStable key x ys else x :: y :: ys

/-- Stable sort by numeric key: the embedding of the server's
`[...keys].sort((a, b) => idx(a) - idx(b))` (JS sort is stable and,
for this consistent comparator, orders by `idx`). -/
def sortStable (key : String → Nat) : List String → List String
  | [] => []
  | x :: xs => insertStable key x (sortStable key xs)

/-- The server's `ordered`: sort candidate keys by `fieldOrder`
position when a nonempty order is configured, else keep submission
order. -/
def orderedKeys (site : SiteConfig) (body : Body) : List String :=
  let order := site.fieldOrder.getD []
  if order.length > 0 then sortStable (jsIdx order) (candidateKeys body)
  else candidateKeys body

/-- The display label for a field: the configured label if truthy, else
the raw field name. -/
def labelOf (site : SiteConfig) (k : String) : String :=
  jsOrStr ((site.fieldLabels.getD []).lookup k) k

/-- One rendered HTML row: a paragraph with the bolded escaped label
followed by the escaped stringified value. -/
def htmlRow (site : SiteConfig) (body : Body) (k : String) : String :=
  "<p><strong>" ++ esc (labelOf site k) ++ ":</strong> " ++ esc ((jsGet body k).str) ++ "</p>"

/-- The server's `rows`: one HTML row per ordered key. -/
def htmlRows (site : SiteConfig) (body : Body) : List String :=
  (orderedKeys site body).map (htmlRow site body)

/-- One plaintext line: label, colon-space, raw stringified value. -/
def textLine (site : SiteConfig) (body : Body) (k : String) : String :=
  labelOf site k ++ ": " ++ (jsGet body k).str

/-- The lines of the plaintext body, one per ordered key. -/
def textLines (site : SiteConfig) (body : Body) : List String :=
  (orderedKeys site body).map (textLine site body)

/-- JS `.slice(0, 160)` on a string: keep at most the first 160
characters. -/
def jsSlice160 (s : String) : String :=
  String.mk (s.data.take 160)

/-- The message subject: the configured subject if truthy, else the
configured prefix (default "Kontakt") followed by " Anfrage", the whole
sliced to 160 characters. -/
def subjectOf (site : SiteConfig) : String :=
  jsSlice160 (jsOrStr site.subject (jsOrStr site.subjectPrefix "Kontakt" ++ " Anfrage"))

/-- The HTML body template from server.js (backquote literal): heading
with the escaped subject, then the newline-joined rows. -/
def htmlBody (site : SiteConfig) (body : Body) : String :=
  "\n      <h2>" ++ esc (subjectOf site) ++ "</h2>\n      " ++
    String.intercalate "\n" (htmlRows site body) ++ "\n    "

/-- The plaintext body: the lines joined by newlines. -/
def textBody (site : SiteConfig) (body : Body) : String :=
  String.intercalate "\n" (textLines site body)

/-- An HTTP response body: the ok marker or an error message. -/
inductive RespBody where
  | okTrue : RespBody
  | err (msg : String) : RespBody
deriving DecidableEq, Repr

/-- An HTTP response: status code and JSON body. -/
structure Response where
  status : Nat
  body : RespBody
deriving DecidableEq, Repr

/-- The site registry: site key to configuration, as loaded from `SITES_JSON`. -/
abbrev Sites := List (String × SiteConfig)

/-- The server's `SITES` after startup: the parsed mapping, or the
empty mapping when parsing the configuration input threw (the
try/catch around `JSON.parse`). -/
def loadSites (parsed : Except String Sites) : Sites :=
  match parsed with
  | .ok m => m
  | .error _ => []

/-- The site resolved for a body, if any: the `siteId` field must be
truthy and its stringification must be a key of the registry. -/
def siteFor (sites : Sites) (body : Body) : Option SiteConfig :=
  let v := jsGet body "siteId"
  if v.truthy then sites.lookup v.str else none

/-- The per-site origin check: reject when an Origin header is present
(nonempty), `allowedOrigins` is an array, and the header value is not a
member. -/
def originRejected (site : SiteConfig) (originHdr : Option String) : Bool :=
  let origin := originHdr.getD ""
  origin != "" &&
    (match site.allowedOrigins with
     | some l => !l.contains origin
     | none => false)

/-- The required-fields loop: the first field of the site's required
list (default: the email field) whose body value is empty, if any. -/
def firstMissing (site : SiteConfig) (body : Body) : Option String :=
  (site.requiredFields.getD ["email"]).find? (fun f => jsIsEmpty (jsGet body f))

/-- The `POST /v1/contact` handler.  `originHdr` is the request's
Origin header; `dispatch` is the outcome of the awaited mail dispatch
call (`.error` when it throws or rejects, carrying the provider's error
detail). -/
def handleContact (sites : Sites) (originHdr : Option String) (body : Body)
    (dispatch : Except String Unit) : Response :=
  match siteFor sites body with
  | none => ⟨400, .err "unknown siteId"⟩
  | some site =>
    if originRejected site originHdr then ⟨403, .err "origin not allowed"⟩
    else
      match firstMissing site body with
      | some f => ⟨400, .err ("missing required field: " ++ f)⟩
      | none =>
        if !jsIsEmail (jsGet body "email").orEmptyStr then ⟨400, .err "invalid email"⟩
        else
          match dispatch with
          | .ok _ => ⟨200, .okTrue⟩
          | .error _ => ⟨500, .err "Internal error"⟩

/-! ### Lemmas about the stable sort -/

theorem insertStable_perm (key : String → Nat) (x : String) :
    ∀ l : List String, (insertStable key x l).Perm (x :: l)
  | [] => List.Perm.refl _
  | y :: ys => by
    rw [insertStable]
    split
    · exact ((insertStable_perm key x ys).cons y).trans (List.Perm.swap x y ys)
    · exact List.Perm.refl _

theorem sortStable_perm (key : String → Nat) :
    ∀ l : List String, (sortStable key l).Perm l
  | [] => List.Perm.refl _
  | x :: xs =>
    (insertStable_perm key x (sortStable key xs)).trans ((sortStable_perm key xs).cons x)

theorem insertStable_pairwise (key : String → Nat) (x : String) :
    ∀ {l : List String}, l.Pairwise (fun a b => key a ≤ key b) →
      (insertStable key x l).Pairwise (fun a b => key a ≤ key b)
  | [], _ => by simp [insertStable]
  | y :: ys, h => by
    rw [List.pairwise_cons] at h
    obtain ⟨hy, hys⟩ := h
    rw [insertStable]
    split
    · rename_i hlt
      rw [List.pairwise_cons]
      refine ⟨?_, insertStable_pairwise key x hys⟩
      intro b hb
      have hb' : b ∈ x :: ys := (insertStable_perm key x ys).mem_iff.mp hb
      rcases List.mem_cons.mp hb' with hbx | hbys
      · subst hbx; exact Nat.le_of_lt hlt
      · exact hy b hbys
    · rename_i hge
      rw [List.pairwise_cons]
      constructor
      · intro b hb
        rcases List.mem_cons.mp hb with hby | hbys
        · subst hby; exact Nat.le_of_not_lt hge
        · exact Nat.le_trans (Nat.le_of_not_lt hge) (hy b hbys)
      · exact List.pairwise_cons.mpr ⟨hy, hys⟩

theorem sortStable_pairwise (key : String → Nat) :
    ∀ l : List String, (sortStable key l).Pairwise (fun a b => key a ≤ key b)
  | [] => List.Pairwise.nil
  | x :: xs => insertStable_pairwise key x (sortStable_pairwise key xs)

theorem insertStable_filter (key : String → Nat) (x : String) (n : Nat) :
    ∀ l : List String,
      (insertStable key x l).filter (fun a => key a == n) =
        if key x = n then x :: l.filter (fun a => key a == n)
        else l.filter (fun a => key a == n)
  | [] => by
    by_cases h : key x = n <;>
      simp [insertStable, List.filter_cons, beq_iff_eq, h]
  | y :: ys => by
    rw [insertStable]
    split
    · rename_i hlt
      rw [List.filter_cons, insertStable_filter key x n ys]
      by_cases hx : key x = n
      · have hy : ¬ key y = n := by omega
        simp [beq_iff_eq, hy, hx, List.filter_cons]
      · simp [beq_iff_eq, hx, List.filter_cons]
    · by_cases hx : key x = n <;>
        simp [List.filter_cons, beq_iff_eq, hx]

theorem sortStable_filter (key : String → Nat) (n : Nat) :
    ∀ l : List String,
      (sortStable key l).filter (fun a => key a == n) = l.filter (fun a => key a == n)
  | [] => rfl
  | x :: xs => by
    rw [sortStable, insertStable_filter key x n (sortStable key xs)]
    by_cases h : key x = n <;>
      simp [h, sortStable_filter key n xs, List.filter_cons]

/-! ### Lemmas about `indexOf?` and `jsIdx` -/

theorem indexOf?_eq_none {k : String} : ∀ {l : List String}, k ∉ l → indexOf? k l = none
  | [], _ => rfl
  | a :: rest, h => by
    have ha : ¬ a = k := fun e => h (e ▸ List.mem_cons_self a rest)
    have hr : k ∉ rest := fun e => h (List.mem_cons_of_mem a e)
    simp [indexOf?, ha, indexOf?_eq_none hr]

theorem indexOf?_lt_length {k : String} :
    ∀ {l : List String} {i : Nat}, indexOf? k l = some i → i < l.length
  | [], i, h => by simp [indexOf?] at h
  | a :: rest, i, h => by
    rw [indexOf?] at h
    split at h
    · cases h; simp
    · rcases Option.map_eq_some'.mp h with ⟨j, hj, hji⟩
      have := indexOf?_lt_length hj
      simp [← hji, List.length_cons]
      omega

theorem indexOf?_of_mem {k : String} :
    ∀ {l : List String}, k ∈ l → ∃ i, indexOf? k l = some i
  | [], h => absurd h (List.not_mem_nil k)
  | a :: rest, h => by
    by_cases ha : a = k
    · exact ⟨0, by simp [indexOf?, ha]⟩
    · have hr : k ∈ rest := by
        rcases List.mem_cons.mp h with he | hm
        · exact absurd he.symm ha
        · exact hm
      obtain ⟨i, hi⟩ := indexOf?_of_mem hr
      exact ⟨i + 1, by simp [indexOf?, ha, hi]⟩

theorem jsIdx_lt_of_mem {order : List String} {k : String}
    (hlen : order.length ≤ 9999) (h : k ∈ order) : jsIdx order k < 9999 := by
  obtain ⟨i, hi⟩ := indexOf?_of_mem h
  have hlt := indexOf?_lt_length hi
  have h2 : jsIdx order k = i := by rw [jsIdx, hi]
  rw [h2]
  omega

theorem jsIdx_eq_of_not_mem {order : List String} {k : String}
    (h : k ∉ order) : jsIdx order k = 9999 := by
  rw [jsIdx, indexOf?_eq_none h]

/-! ### Lemmas about candidate keys and rendering -/

theorem orderedKeys_perm (site : SiteConfig) (body : Body) :
    (orderedKeys site body).Perm (candidateKeys body) := by
  simp only [orderedKeys]
  split
  · exact sortStable_perm _ _
  · exact List.Perm.refl _

theorem candidateKeys_nodup (body : Body) (h : (body.map Prod.fst).Nodup) :
    (candidateKeys body).Nodup :=
  h.filter _

theorem mem_candidateKeys {body : Body} {k : String}
    (hk : k ∈ body.map Prod.fst) (hint : k ∉ IGNORE)
    (hne : jsIsEmpty (jsGet body k) = false) : k ∈ candidateKeys body := by
  rw [candidateKeys]
  exact List.mem_filter.mpr ⟨hk, by simp [hint, hne]⟩

/-- The character predicate for C6: not one of the four characters that
could open or close markup or break out of an attribute. -/
def notBad (d : Char) : Bool :=
  !(d == '<') && !(d == '>') && !(d == '"') && !(d == '\'')

theorem escChar_notBad (c : Char) : (escChar c).data.all notBad = true := by
  rw [escChar]
  split
  · decide
  split
  · decide
  split
  · decide
  split
  · decide
  split
  · decide
  rename_i h1 h2 h3 h4 h5
  show ([c].all notBad) = true
  simp [notBad, h2, h3, h4, h5]

theorem escList_notBad : ∀ cs : List Char, (escList cs).data.all notBad = true
  | [] => rfl
  | c :: cs => by
    rw [escList, String.data_append, List.all_append, escChar_notBad, escList_notBad cs]
    rfl

theorem esc_notBad (s : String) : (esc s).data.all notBad = true :=
  escList_notBad s.data

theorem originRejected_true_iff (site : SiteConfig) (hdr : Option String) :
    originRejected site hdr = true ↔
      (hdr.getD "" ≠ "" ∧ site.allowedOrigins.isSome = true ∧
        hdr.getD "" ∉ site.allowedOrigins.getD []) := by
  rw [originRejected]
  cases h : site.allowedOrigins with
  | none => simp [h]
  | some l =>
    simp only [h, Option.isSome_some, Option.getD_some, true_and]
    constructor
    · intro hb
      rcases (Bool.and_eq_true _ _).mp hb with ⟨hne, hnc⟩
      refine ⟨by simpa using hne, ?_⟩
      intro hm
      simp [hm] at hnc
    · rintro ⟨hne, hnm⟩
      refine (Bool.and_eq_true _ _).mpr ⟨by simpa using hne, ?_⟩
      simp [hnm]

/-! ### Concrete instances used by witnesses and counterexamples -/

/-- A representative site configuration. -/
def demoSite : SiteConfig :=
  { requiredFields := some ["email"],
    allowedOrigins := some ["https://ok.example"],
    fieldLabels := some [("name", "Name")],
    fieldOrder := some ["name", "email"] }

/-- A representative valid submission body for `demoSite`. -/
def demoBody : Body :=
  [("siteId", .vstr "x"), ("email", .vstr "a@b.com"), ("name", .vstr "Ann"),
   ("hp", .vstr "")]

/-- A registry holding `demoSite` under key `x`. -/
def demoSites : Sites := [("x", demoSite)]

/-- A body for `demoSite` that lacks the required email field. -/
def missingBody : Body := [("siteId", .vstr "x"), ("name", .vstr "Ann")]

/-- A site whose required-field list is the (truthy) empty array. -/
def noReqSite : SiteConfig := { requiredFields := some [] }

/-- A registry holding `noReqSite` under key `n`. -/
def noReqSites : Sites := [("n", noReqSite)]

/-- A body for `noReqSite` with no email field at all. -/
def noEmailBody : Body := [("siteId", .vstr "n"), ("message", .vstr "Hallo")]

/-! ### Claim theorems -/

/-- C9: if the startup configuration input is malformed (the parse
throws), the registry degrades to the empty mapping and every request
is answered 400 unknown siteId, for any Origin header, body and
dispatch outcome. -/
theorem c9_malformed_config_degrades_to_unknown_site (emsg : String)
    (hdr : Option String) (body : Body) (d : Except String Unit) :
    loadSites (.error emsg) = [] ∧
    handleContact (loadSites (.error emsg)) hdr body d = ⟨400, .err "unknown siteId"⟩ := by
  refine ⟨rfl, ?_⟩
  have h0 : siteFor ([] : Sites) body = none := by
    simp only [siteFor]
    split <;> rfl
  simp [handleContact, loadSites, h0]

/-- C8: when validation passes and the mail dispatch call rejects, the
response is the fixed 500 Internal error body; the response is the same
constant for every dispatch error detail `e`, so the detail never
appears in the HTTP response. -/
theorem c8_dispatch_failure_internal_error
    (sites : Sites) (hdr : Option String) (body : Body) (site : SiteConfig) (e : String)
    (hsite : siteFor sites body = some site)
    (hor : originRejected site hdr = false)
    (hreq : firstMissing site body = none)
    (hmail : jsIsEmail (jsGet body "email").orEmptyStr = true) :
    handleContact sites hdr body (.error e) = ⟨500, .err "Internal error"⟩ := by
  simp [handleContact, hsite, hor, hreq, hmail]

/-- Witness for C8 at a concrete provider error. -/
theorem c8_witness :
    handleContact demoSites none demoBody (.error "connect ECONNREFUSED api.brevo.com") =
      ⟨500, .err "Internal error"⟩ :=
  c8_dispatch_failure_internal_error demoSites none demoBody demoSite
    "connect ECONNREFUSED api.brevo.com" (by decide) (by decide) (by decide) (by decide)

/-- C3: for a known site with accepted origin, if the required list
decomposes as `pre ++ f :: suf` with every field of `pre` present and
non-blank and `f` empty, the response is 400 naming `f` — the first
missing required field in declaration order. -/
theorem c3_first_missing_required_field_reported
    (sites : Sites) (hdr : Option String) (body : Body) (d : Except String Unit)
    (site : SiteConfig) (pre suf : List String) (f : String)
    (hsite : siteFor sites body = some site)
    (hor : originRejected site hdr = false)
    (hdecomp : site.requiredFields.getD ["email"] = pre ++ f :: suf)
    (hpre : ∀ g ∈ pre, jsIsEmpty (jsGet body g) = false)
    (hf : jsIsEmpty (jsGet body f) = true) :
    handleContact sites hdr body d = ⟨400, .err ("missing required field: " ++ f)⟩ := by
  have hfm : firstMissing site body = some f := by
    unfold firstMissing
    rw [hdecomp, List.find?_append]
    have h1 : List.find? (fun g => jsIsEmpty (jsGet body g)) pre = none :=
      List.find?_eq_none.mpr (by intro x hx; simp [hpre x hx])
    rw [h1, @List.find?_cons_of_pos _ (fun g => jsIsEmpty (jsGet body g)) f suf hf]
    rfl
  simp [handleContact, hsite, hor, hfm]

/-- Witness for C3: the email field is the first (and only) required
field and is absent. -/
theorem c3_witness :
    handleContact demoSites none missingBody (.ok ()) =
      ⟨400, .err ("missing required field: " ++ "email")⟩ :=
  c3_first_missing_required_field_reported demoSites none missingBody (.ok ())
    demoSite [] [] "email" (by decide) (by decide) (by decide) (by decide) (by decide)

/-- C4: for a known site with accepted origin and no missing required
field, a submission whose email value fails the email pattern is
answered 400 invalid email — including when the email field is not in
the required list (an absent email stringifies to the empty string,
which fails the pattern; see the witness). -/
theorem c4_invalid_email_rejected
    (sites : Sites) (hdr : Option String) (body : Body) (d : Except String Unit)
    (site : SiteConfig)
    (hsite : siteFor sites body = some site)
    (hor : originRejected site hdr = false)
    (hreq : firstMissing site body = none)
    (hmail : jsIsEmail (jsGet body "email").orEmptyStr = false) :
    handleContact sites hdr body d = ⟨400, .err "invalid email"⟩ := by
  simp [handleContact, hsite, hor, hreq, hmail]

/-- Witness for C4: a site that requires no fields at all still rejects
a submission without an email field. -/
theorem c4_witness :
    handleContact noReqSites none noEmailBody (.ok ()) = ⟨400, .err "invalid email"⟩ :=
  c4_invalid_email_rejected noReqSites none noEmailBody (.ok ()) noReqSite
    (by decide) (by decide) (by decide) (by decide)

/-- After a passed origin check the handler can only answer 400, 200 or
500, never 403. -/
theorem handleContact_status_of_not_rejected
    (sites : Sites) (hdr : Option String) (body : Body) (d : Except String Unit)
    (site : SiteConfig)
    (hsite : siteFor sites body = some site)
    (hor : originRejected site hdr = false) :
    (handleContact sites hdr body d).status = 400 ∨
    (handleContact sites hdr body d).status = 200 ∨
    (handleContact sites hdr body d).status = 500 := by
  simp only [handleContact, hsite, hor, Bool.false_eq_true, if_false]
  rcases hm : firstMissing site body with _ | f
  · by_cases he : jsIsEmail (jsGet body "email").orEmptyStr = true
    · rcases d with e | u <;> simp [he]
    · simp [Bool.not_eq_true] at he
      simp [he]
  · simp

/-- A site declaring the empty allow-list: according to the claim it
enforces nothing. -/
def emptyAllowSite : SiteConfig := { allowedOrigins := some [] }

/-- A registry holding `emptyAllowSite` under key `s`. -/
def emptyAllowSites : Sites := [("s", emptyAllowSite)]

/-- A valid submission body for `emptyAllowSite`. -/
def c2Body : Body := [("siteId", .vstr "s"), ("email", .vstr "a@b.com")]

/-- C2 counterexample: the claim states that a site with an empty
allowed-origin list performs no origin enforcement, yet the code
answers 403 to a request bearing an Origin header, because
`Array.isArray([])` holds and `[].includes(origin)` is false. -/
theorem c2_counterexample :
    emptyAllowSite.allowedOrigins = some ([] : List String) ∧
    handleContact emptyAllowSites (some "https://a.example") c2Body (.ok ()) =
      ⟨403, .err "origin not allowed"⟩ :=
  ⟨rfl, by decide⟩

/-- C2 (amended): for a known site, the response status is 403 exactly
when the Origin header is present (nonempty), `allowedOrigins` is an
array (of any length, the empty array included), and the header value
is not a member of it. -/
theorem c2_origin_rejection_iff
    (sites : Sites) (hdr : Option String) (body : Body) (d : Except String Unit)
    (site : SiteConfig) (hsite : siteFor sites body = some site) :
    (handleContact sites hdr body d).status = 403 ↔
      (hdr.getD "" ≠ "" ∧ site.allowedOrigins.isSome = true ∧
        hdr.getD "" ∉ site.allowedOrigins.getD []) := by
  constructor
  · intro h
    by_cases hb : originRejected site hdr = true
    · exact (originRejected_true_iff site hdr).mp hb
    · exfalso
      have hfalse : originRejected site hdr = false := by
        cases hb2 : originRejected site hdr
        · rfl
        · exact absurd hb2 hb
      rcases handleContact_status_of_not_rejected sites hdr body d site hsite hfalse with
        h4 | h2 | h5 <;> omega
  · intro hcond
    have hb : originRejected site hdr = true := (originRejected_true_iff site hdr).mpr hcond
    simp [handleContact, hsite, hb]

/-- Witness for C2 (amended) at a concrete rejected origin. -/
theorem c2_witness :
    (handleContact demoSites (some "https://evil.example") demoBody (.ok ())).status = 403 ↔
      ((some "https://evil.example").getD "" ≠ "" ∧ demoSite.allowedOrigins.isSome = true ∧
        (some "https://evil.example").getD "" ∉ demoSite.allowedOrigins.getD []) :=
  c2_origin_rejection_iff demoSites (some "https://evil.example") demoBody (.ok ())
    demoSite (by decide)

/-- C7: the subject is at most 160 characters; it is the site's
configured subject (truncated) when that is truthy, else the configured
prefix followed by " Anfrage", else "Kontakt Anfrage", each truncated
to 160 characters. -/
theorem c7_subject_rules (site : SiteConfig) :
    (subjectOf site).length ≤ 160 ∧
    (site.subject.getD "" ≠ "" → subjectOf site = jsSlice160 (site.subject.getD "")) ∧
    (site.subject.getD "" = "" → site.subjectPrefix.getD "" ≠ "" →
      subjectOf site = jsSlice160 (site.subjectPrefix.getD "" ++ " Anfrage")) ∧
    (site.subject.getD "" = "" → site.subjectPrefix.getD "" = "" →
      subjectOf site = jsSlice160 "Kontakt Anfrage") := by
  refine ⟨?_, ?_, ?_, ?_⟩
  · show (String.mk ((jsOrStr site.subject _).data.take 160)).length ≤ 160
    rw [String.length_mk, List.length_take]
    exact min_le_left _ _
  · intro h
    cases hs : site.subject with
    | none => rw [hs] at h; simp at h
    | some s =>
      rw [hs] at h
      simp only [Option.getD_some] at h ⊢
      simp [subjectOf, jsOrStr, hs, h]
  · intro h1 h2
    cases hs : site.subject with
    | none =>
      cases hp : site.subjectPrefix with
      | none => rw [hp] at h2; simp at h2
      | some p =>
        rw [hp] at h2
        simp only [Option.getD_some] at h2 ⊢
        simp [subjectOf, jsOrStr, hs, hp, h2]
    | some s =>
      rw [hs] at h1
      simp only [Option.getD_some] at h1
      cases hp : site.subjectPrefix with
      | none => rw [hp] at h2; simp at h2
      | some p =>
        rw [hp] at h2
        simp only [Option.getD_some] at h2 ⊢
        simp [subjectOf, jsOrStr, hs, hp, h1, h2]
  · intro h1 h2
    cases hs : site.subject with
    | none =>
      cases hp : site.subjectPrefix with
      | none => simp [subjectOf, jsOrStr, hs, hp]
      | some p =>
        rw [hp] at h2
        simp only [Option.getD_some] at h2
        simp [subjectOf, jsOrStr, hs, hp, h2]
    | some s =>
      rw [hs] at h1
      simp only [Option.getD_some] at h1
      cases hp : site.subjectPrefix with
      | none => simp [subjectOf, jsOrStr, hs, hp, h1]
      | some p =>
        rw [hp] at h2
        simp only [Option.getD_some] at h2
        simp [subjectOf, jsOrStr, hs, hp, h1, h2]

/-- A site with a configured subject, for the C7 witness. -/
def subjSite : SiteConfig := { subject := some "Sommerfest 2026" }

/-- Witness for C7: a truthy configured subject is used (truncated). -/
theorem c7_witness :
    (subjectOf subjSite).length ≤ 160 ∧
    subjectOf subjSite = jsSlice160 (subjSite.subject.getD "") :=
  ⟨(c7_subject_rules subjSite).1, (c7_subject_rules subjSite).2.1 (by decide)⟩

/-- C10: the HTML body is the heading with the entity-escaped subject
followed by the joined field rows; in particular it never equals the
joined field rows alone. -/
theorem c10_html_begins_with_heading (site : SiteConfig) (body : Body) :
    htmlBody site body =
      "\n      <h2>" ++ esc (subjectOf site) ++ "</h2>\n      " ++
        String.intercalate "\n" (htmlRows site body) ++ "\n    " ∧
    htmlBody site body ≠ String.intercalate "\n" (htmlRows site body) := by
  refine ⟨rfl, ?_⟩
  intro h
  have hl : (htmlBody site body).length =
      (String.intercalate "\n" (htmlRows site body)).length := congrArg String.length h
  simp only [htmlBody, String.length_append] at hl
  have e1 : ("\n      <h2>" : String).length = 11 := rfl
  have e2 : ("</h2>\n      " : String).length = 12 := rfl
  have e3 : ("\n    " : String).length = 5 := rfl
  rw [e1, e2, e3] at hl
  omega

/-- Witness for C10 at a concrete site and body. -/
theorem c10_witness :
    htmlBody demoSite demoBody =
      "\n      <h2>" ++ esc (subjectOf demoSite) ++ "</h2>\n      " ++
        String.intercalate "\n" (htmlRows demoSite demoBody) ++ "\n    " ∧
    htmlBody demoSite demoBody ≠ String.intercalate "\n" (htmlRows demoSite demoBody) :=
  c10_html_begins_with_heading demoSite demoBody

/-- C6: the HTML rows embed label and value only through `esc`, whose
output never contains a bare less-than, greater-than, double-quote or
single-quote character (each input occurrence of the five specials,
the ampersand included, is replaced by its entity by `escChar`); a
value containing a script tag is rendered in escaped-entity form;
the plaintext lines carry the same ordered fields unescaped, the value
verbatim, joined one per line. -/
theorem c6_html_escaped_text_verbatim (site : SiteConfig) (body : Body) :
    htmlRows site body = (orderedKeys site body).map (fun k =>
      "<p><strong>" ++ esc (labelOf site k) ++ ":</strong> " ++
        esc ((jsGet body k).str) ++ "</p>") ∧
    (∀ s : String, (esc s).data.all notBad = true) ∧
    esc "<script>alert('x')</script>" =
      "&lt;script&gt;alert(&#39;x&#39;)&lt;/script&gt;" ∧
    textLines site body = (orderedKeys site body).map (fun k =>
      labelOf site k ++ ": " ++ (jsGet body k).str) ∧
    textBody site body = String.intercalate "\n" (textLines site body) :=
  ⟨rfl, esc_notBad, by decide, rfl, rfl⟩

/-- C1: every field of the body that is not internal and not empty
appears exactly once among the ordered rendered keys, and the HTML rows
and plaintext lines are exactly the per-key renderings of those ordered
keys (label via `labelOf`: the configured label when truthy, else the
raw field name) — required and non-required fields alike. -/
theorem c1_candidate_fields_rendered_once
    (site : SiteConfig) (body : Body) (k : String)
    (hnd : (body.map Prod.fst).Nodup)
    (hk : k ∈ body.map Prod.fst)
    (hint : k ∉ IGNORE)
    (hne : jsIsEmpty (jsGet body k) = false) :
    (orderedKeys site body).count k = 1 ∧
    htmlRows site body = (orderedKeys site body).map (htmlRow site body) ∧
    textLines site body = (orderedKeys site body).map (textLine site body) := by
  refine ⟨?_, rfl, rfl⟩
  have hmem : k ∈ candidateKeys body := mem_candidateKeys hk hint hne
  have hnodup := candidateKeys_nodup body hnd
  calc (orderedKeys site body).count k
      = (candidateKeys body).count k := (orderedKeys_perm site body).count_eq k
    _ = 1 := List.count_eq_one_of_mem hnodup hmem

/-- Witness for C1: the non-required field name of the demo body is
rendered exactly once. -/
theorem c1_witness :
    (orderedKeys demoSite demoBody).count "name" = 1 ∧
    htmlRows demoSite demoBody = (orderedKeys demoSite demoBody).map (htmlRow demoSite demoBody) ∧
    textLines demoSite demoBody = (orderedKeys demoSite demoBody).map (textLine demoSite demoBody) :=
  c1_candidate_fields_rendered_once demoSite demoBody "name"
    (by decide) (by decide) (by decide) (by decide)

/-- The index of the trailing element after a block of 9999 copies of a
different name is exactly the sentinel 9999. -/
theorem indexOf?_replicate_append (a b : String) (hab : a ≠ b) :
    ∀ n : Nat, indexOf? b (List.replicate n a ++ [b]) = some n
  | 0 => by simp [indexOf?]
  | n + 1 => by
    rw [List.replicate_succ, List.cons_append, indexOf?]
    simp [hab, indexOf?_replicate_append a b hab n]

/-- A display-order list with 10000 entries: a field listed at position
9999 collides with the sentinel used for unlisted fields. -/
def longOrder : List String := List.replicate 9999 "x" ++ ["z"]

/-- A site configured with `longOrder`. -/
def c5Site : SiteConfig := { fieldOrder := some longOrder }

/-- A body whose unlisted field `u` precedes the listed field `z`. -/
def c5Body : Body := [("u", .vstr "1"), ("z", .vstr "2")]

/-- C5 counterexample: `z` is in the display-order list (at position
9999) and `u` is not, yet the rendered order keeps `u` first — the
comparator maps both to 9999, so a listed field is NOT placed before an
unlisted one, contrary to the claim, which quantifies over every site
config. -/
theorem c5_counterexample :
    "z" ∈ c5Site.fieldOrder.getD [] ∧
    "u" ∉ c5Site.fieldOrder.getD [] ∧
    orderedKeys c5Site c5Body = ["u", "z"] := by
  have hz : "z" ∈ longOrder :=
    List.mem_append.mpr (Or.inr (List.mem_singleton.mpr rfl))
  have hu : "u" ∉ longOrder := by
    intro h
    rcases List.mem_append.mp h with hrep | hsing
    · exact absurd (List.mem_replicate.mp hrep).2 (by decide)
    · exact absurd (List.mem_singleton.mp hsing) (by decide)
  refine ⟨hz, hu, ?_⟩
  have hiz : indexOf? "z" longOrder = some 9999 :=
    indexOf?_replicate_append "x" "z" (by decide) 9999
  have hidz : jsIdx longOrder "z" = 9999 := by rw [jsIdx, hiz]
  have hidu : jsIdx longOrder "u" = 9999 := jsIdx_eq_of_not_mem hu
  have hgd : c5Site.fieldOrder.getD [] = longOrder := rfl
  have hck : candidateKeys c5Body = ["u", "z"] := by decide
  have hlen : longOrder.length = 10000 := by
    show (List.replicate 9999 "x" ++ ["z"]).length = 10000
    rw [List.length_append, List.length_replicate]
    rfl
  simp only [orderedKeys, hgd, hck, hlen]
  rw [if_pos (by norm_num : (10000 : Nat) > 0)]
  simp [sortStable, insertStable, hidz, hidu]

/-- C5 (amended): when the display-order list has at most 9999 entries
(below the comparator's not-listed sentinel), the rendered keys are a
permutation of the candidate keys sorted by list position with the
sentinel for unlisted fields, every listed field precedes every
unlisted one, and the unlisted fields keep their relative submission
order; with no (or an empty) configured order the submission order is
kept unchanged.  The claim as frozen omits the length bound and fails
at a 10000-entry order (see the counterexample). -/
theorem c5_display_order_sorting
    (site : SiteConfig) (body : Body)
    (hlen : (site.fieldOrder.getD []).length ≤ 9999) :
    (site.fieldOrder.getD [] = [] → orderedKeys site body = candidateKeys body) ∧
    (site.fieldOrder.getD [] ≠ [] →
      (orderedKeys site body).Perm (candidateKeys body) ∧
      (orderedKeys site body).Pairwise
        (fun a b => jsIdx (site.fieldOrder.getD []) a ≤ jsIdx (site.fieldOrder.getD []) b) ∧
      (orderedKeys site body).Pairwise
        (fun a b => b ∈ site.fieldOrder.getD [] → a ∈ site.fieldOrder.getD []) ∧
      (orderedKeys site body).filter (fun k => !(site.fieldOrder.getD []).contains k) =
        (candidateKeys body).filter (fun k => !(site.fieldOrder.getD []).contains k)) := by
  constructor
  · intro h0
    simp [orderedKeys, h0]
  · intro hne
    have hpos : 0 < (site.fieldOrder.getD []).length := List.length_pos.mpr hne
    have hok : orderedKeys site body =
        sortStable (jsIdx (site.fieldOrder.getD [])) (candidateKeys body) := by
      simp only [orderedKeys]
      rw [if_pos hpos]
    refine ⟨?_, ?_, ?_, ?_⟩
    · rw [hok]; exact sortStable_perm _ _
    · rw [hok]; exact sortStable_pairwise _ _
    · rw [hok]
      refine (sortStable_pairwise _ _).imp ?_
      intro a b hab hbmem
      by_contra hna
      have ha := jsIdx_eq_of_not_mem hna
      have hb := jsIdx_lt_of_mem hlen hbmem
      omega
    · rw [hok]
      have hcongr : ∀ l : List String,
          l.filter (fun k => !(site.fieldOrder.getD []).contains k) =
          l.filter (fun k => jsIdx (site.fieldOrder.getD []) k == 9999) := by
        intro l
        apply List.filter_congr
        intro x _
        by_cases hx : x ∈ site.fieldOrder.getD []
        · have hlt := jsIdx_lt_of_mem hlen hx
          have hne9 : ¬ jsIdx (site.fieldOrder.getD []) x = 9999 := by omega
          simp [hx, hne9]
        · have h9 := jsIdx_eq_of_not_mem hx
          simp [hx, h9]
      rw [hcongr, hcongr]
      exact sortStable_filter _ 9999 _

/-- Witness for C5 (amended) at the demo site, whose two-entry order
list is below the sentinel bound. -/
theorem c5_witness :
    (demoSite.fieldOrder.getD [] = [] →
      orderedKeys demoSite demoBody = candidateKeys demoBody) ∧
    (demoSite.fieldOrder.getD [] ≠ [] →
      (orderedKeys demoSite demoBody).Perm (candidateKeys demoBody) ∧
      (orderedKeys demoSite demoBody).Pairwise
        (fun a b => jsIdx (demoSite.fieldOrder.getD []) a ≤
          jsIdx (demoSite.fieldOrder.getD []) b) ∧
      (orderedKeys demoSite demoBody).Pairwise
        (fun a b => b ∈ demoSite.fieldOrder.getD [] → a ∈ demoSite.fieldOrder.getD []) ∧
      (orderedKeys demoSite demoBody).filter
          (fun k => !(demoSite.fieldOrder.getD []).contains k) =
        (candidateKeys demoBody).filter
          (fun k => !(demoSite.fieldOrder.getD []).contains k)) :=
  c5_display_order_sorting demoSite demoBody (by decide)

end Contact
